import Mathlib

/-!
Shallow embedding of the CRL revocation checking module of this repository
(src/revocation/internal/crl/crl.go) together with theorems about its
revocation-status resolution, CRL validation, delta consistency checking and
entry extension parsing.

Modelling conventions:
- Time instants are naturals; 0 stands for the Go zero time value, the Go
  method Before is strict less-than, After is strict greater-than, IsZero is
  equality with 0.
- Arbitrary precision integers (math/big Int) are Lean Int; Cmp comparisons
  become the corresponding order relations.
- Byte strings and object identifiers are lists of naturals.
- Fallible Go functions returning (value, error) become Except String.
- External collaborators (issuer signature verification, the clock, the two
  ASN.1 decoders from the standard library and cryptobyte) are threaded
  through an explicit environment record, and the CRL fetcher is a function
  argument, mirroring the pluggable Fetcher interface.
-/

namespace CRL

/-- An X.509 extension as read by crl.go (pkix.Extension): object
identifier, criticality flag, raw value bytes. -/
structure Extension where
  id : List Nat
  critical : Bool
  value : List Nat
deriving DecidableEq

/-- One revoked-certificate entry of a CRL (x509.RevocationListEntry):
serial number, revocation time, reason code, entry extensions. -/
structure RevocationListEntry where
  serialNumber : Int
  revocationTime : Nat
  reasonCode : Int
  extensions : List Extension
deriving DecidableEq

/-- A certificate revocation list (x509.RevocationList): CRL number,
next-update time, revoked entries in stored order, CRL extensions. -/
structure RevocationList where
  number : Int
  nextUpdate : Nat
  revokedCertificateEntries : List RevocationListEntry
  extensions : List Extension
deriving DecidableEq

/-- A CRL bundle (crl.Bundle of the revocation/crl package, described in
spec section 3): a required base CRL and an optional delta CRL. -/
structure Bundle where
  baseCRL : RevocationList
  deltaCRL : Option RevocationList
deriving DecidableEq

/-- The fields of x509.Certificate read by crl.go: serial number, CRL
distribution point URLs, certificate extensions. Only non-nil certificates
are modelled. -/
structure Certificate where
  serialNumber : Int
  crlDistributionPoints : List String
  extensions : List Extension
deriving DecidableEq

/-- Revocation statuses (result.Result of the revocation/result package,
spec section 3: OK, Revoked, Unknown, NotApplicable). -/
inductive Result where
  | OK
  | NonRevokable
  | Unknown
  | Revoked
deriving DecidableEq

/-- Per-server revocation result (result.ServerResult). The revocation
method field is constantly CRL in this module and is omitted. -/
structure ServerResult where
  result : Result
  server : String
  error : Option String
deriving DecidableEq

/-- Aggregated revocation result (result.CertRevocationResult); the constant
revocation method field is omitted. -/
structure CertRevocationResult where
  result : Result
  serverResults : List ServerResult
deriving DecidableEq

/-- External collaborators of crl.go, passed as an explicit environment:
issuer signature verification (CheckSignatureFrom; none means the signature
verifies, some err is the failure message), the clock reading taken by
time.Now, the ASN.1 integer reader used for the delta CRL indicator
(cryptobyte ReadASN1Integer; none is a parse failure), and the ASN.1
generalized-time decoder used for the invalidity date
(asn1.UnmarshalWithParams; on success it returns the decoded time and the
remaining, undecoded bytes). -/
structure CRLEnv where
  checkSignatureFrom : RevocationList → Option String
  now : Nat
  readASN1Integer : List Nat → Option Int
  unmarshalGeneralizedTime : List Nat → Option (Nat × List Nat)

/-- Reason code certificateHold, crl.go line 48. -/
def reasonCodeCertificateHold : Int := 6

/-- Reason code removeFromCRL, crl.go line 49. -/
def reasonCodeRemoveFromCRL : Int := 8

/-- Object identifier of the freshest CRL extension, crl.go line 55. -/
def oidFreshestCRL : List Nat := [2, 5, 29, 46]

/-- Object identifier of the issuing distribution point extension,
crl.go line 59. -/
def oidIssuingDistributionPoint : List Nat := [2, 5, 29, 28]

/-- Object identifier of the delta CRL indicator extension,
crl.go line 63. -/
def oidDeltaCRLIndicator : List Nat := [2, 5, 29, 27]

/-- Object identifier of the invalidity date entry extension,
crl.go line 67. -/
def oidInvalidityDate : List Nat := [2, 5, 29, 24]

/-- Modelled from the spec: x509util.FindExtensionByOID belongs to this
repository (revocation/internal/x509util) but its source is not under src.
Per spec section 4.1 (Extension Lookup), given an ordered extension list and
a target object identifier it returns the first matching extension, or
none. -/
def findExtensionByOID (extensions : List Extension) (oid : List Nat) : Option Extension :=
  extensions.find? (fun ext => ext.id == oid)

/-- Entry extensions derived per revocation entry (entryExtensions,
crl.go lines 359-362); invalidityDate 0 is the zero time, meaning the
extension is absent. -/
structure EntryExtensions where
  invalidityDate : Nat
deriving DecidableEq

/-- Loop body of parseEntryExtensions (crl.go lines 366-385) over the
remaining extensions, threading the partially built entryExtensions
value. -/
def parseEntryExtensionsLoop (env : CRLEnv) : List Extension → EntryExtensions → Except String EntryExtensions
  | [], extensions => .ok extensions
  | ext :: rest, extensions =>
    if ext.id = oidInvalidityDate then
      match env.unmarshalGeneralizedTime ext.value with
      | none => .error ("failed to parse invalidity date")
      | some (invalidityDate, trailing) =>
        if trailing ≠ [] then
          .error ("invalid invalidity date extension: trailing data")
        else
          parseEntryExtensionsLoop env rest { invalidityDate := invalidityDate }
    else
      if ext.critical then
        .error ("unsupported critical extension found in CRL: " ++ toString ext.id)
      else
        parseEntryExtensionsLoop env rest extensions

/-- parseEntryExtensions (crl.go lines 364-388). -/
def parseEntryExtensions (env : CRLEnv) (entry : RevocationListEntry) : Except String EntryExtensions :=
  parseEntryExtensionsLoop env entry.extensions { invalidityDate := 0 }

/-- Extension policy loop of validateCRL (crl.go lines 251-265): the
issuing distribution point and delta CRL indicator extensions are accepted
without interpretation, any other critical extension is an error, any other
non-critical extension is ignored. -/
def validateCRLExtensions : List Extension → Except String Unit
  | [] => .ok ()
  | ext :: rest =>
    if ext.id = oidIssuingDistributionPoint then
      validateCRLExtensions rest
    else if ext.id = oidDeltaCRLIndicator then
      validateCRLExtensions rest
    else if ext.critical then
      .error ("unsupported critical extension found in CRL: " ++ toString ext.id)
    else
      validateCRLExtensions rest

/-- validateCRL (crl.go lines 236-268): signature check against the issuer,
next-update validity (error when NextUpdate is the zero time, or when the
current time is strictly after NextUpdate), then the extension criticality
policy. -/
def validateCRL (env : CRLEnv) (crl : RevocationList) : Except String Unit :=
  match env.checkSignatureFrom crl with
  | some err => .error ("CRL is not signed by CA: " ++ err)
  | none =>
    if crl.nextUpdate = 0 then
      .error ("CRL NextUpdate is not set")
    else if crl.nextUpdate < env.now then
      .error ("expired CRL. Current time " ++ toString env.now ++ " is after CRL NextUpdate " ++ toString crl.nextUpdate)
    else
      validateCRLExtensions crl.extensions

/-- validate (crl.go lines 199-234): base CRL validation, then, when a
delta CRL is present, delta CRL validation and the delta consistency
checks (delta number strictly greater than base number, delta CRL indicator
present and decodable, indicator at most the base number). -/
def validate (env : CRLEnv) (bundle : Bundle) : Except String Unit :=
  match validateCRL env bundle.baseCRL with
  | .error e => .error ("failed to validate base CRL: " ++ e)
  | .ok _ =>
    match bundle.deltaCRL with
    | none => .ok ()
    | some deltaCRL =>
      match validateCRL env deltaCRL with
      | .error e => .error ("failed to validate delta CRL: " ++ e)
      | .ok _ =>
        if deltaCRL.number ≤ bundle.baseCRL.number then
          .error ("delta CRL number " ++ toString deltaCRL.number ++ " is not greater than the base CRL number " ++ toString bundle.baseCRL.number)
        else
          match findExtensionByOID deltaCRL.extensions oidDeltaCRLIndicator with
          | none => .error ("delta CRL indicator extension is not found")
          | some extension =>
            match env.readASN1Integer extension.value with
            | none => .error ("failed to parse delta CRL indicator extension")
            | some minimumBaseCRLNumber =>
              if bundle.baseCRL.number < minimumBaseCRLNumber then
                .error ("delta CRL indicator " ++ toString minimumBaseCRLNumber ++ " is not less than or equal to the base CRL number " ++ toString bundle.baseCRL.number)
              else
                .ok ()

/-- The merged revocation entry sequence of checkRevocation
(revocationListIter, crl.go lines 283-296): all base CRL entries in stored
order, then all delta CRL entries in stored order. -/
def mergedEntries (b : Bundle) : List RevocationListEntry :=
  b.baseCRL.revokedCertificateEntries ++
    (match b.deltaCRL with
     | some deltaCRL => deltaCRL.revokedCertificateEntries
     | none => [])

/-- Update of latestTempRevokedEntry (crl.go lines 329-332): the entry
replaces the tracked one when none is tracked yet or when its revocation
time is strictly later than the tracked one. This is also, word for word,
step 3 and step 4c of spec section 4.5. -/
def updateLatest (latestTempRevokedEntry : Option RevocationListEntry) (e : RevocationListEntry) : Option RevocationListEntry :=
  match latestTempRevokedEntry with
  | none => some e
  | some cur => if cur.revocationTime < e.revocationTime then some e else some cur

/-- Walk of checkRevocation over the merged entry sequence
(crl.go lines 307-356), threading latestTempRevokedEntry. -/
def checkRevocationLoop (env : CRLEnv) (cert : Certificate) (signingTime : Nat) (crlURL : String) :
    List RevocationListEntry → Option RevocationListEntry → Except String ServerResult
  | [], latestTempRevokedEntry =>
    match latestTempRevokedEntry with
    | some e =>
      if e.reasonCode = reasonCodeCertificateHold then
        .ok { result := Result.Revoked, server := crlURL, error := none }
      else
        .ok { result := Result.OK, server := crlURL, error := none }
    | none => .ok { result := Result.OK, server := crlURL, error := none }
  | revocationEntry :: rest, latestTempRevokedEntry =>
    if revocationEntry.serialNumber = cert.serialNumber then
      match parseEntryExtensions env revocationEntry with
      | .error err => .error err
      | .ok extensions =>
        if signingTime ≠ 0 ∧ extensions.invalidityDate ≠ 0 ∧ signingTime < extensions.invalidityDate then
          .ok { result := Result.OK, server := crlURL, error := none }
        else if revocationEntry.reasonCode = reasonCodeCertificateHold ∨ revocationEntry.reasonCode = reasonCodeRemoveFromCRL then
          checkRevocationLoop env cert signingTime crlURL rest (updateLatest latestTempRevokedEntry revocationEntry)
        else
          .ok { result := Result.Revoked, server := crlURL, error := none }
    else
      checkRevocationLoop env cert signingTime crlURL rest latestTempRevokedEntry

/-- checkRevocation (crl.go lines 271-357) for a non-nil certificate and
bundle with a non-nil base CRL. -/
def checkRevocation (env : CRLEnv) (cert : Certificate) (b : Bundle) (signingTime : Nat) (crlURL : String) : Except String ServerResult :=
  checkRevocationLoop env cert signingTime crlURL (mergedEntries b) none

/-- Supported (crl.go lines 195-197) for a non-nil certificate: the
certificate carries at least one CRL distribution point. -/
def Supported (cert : Certificate) : Bool :=
  !cert.crlDistributionPoints.isEmpty

/-- The aggregate Unknown result built when the URL loop of CertCheckStatus
is aborted by an error (crl.go lines 173-185): exactly one ServerResult
carrying the error and the URL being processed when it occurred. -/
def unknownServerResult (crlURL msg : String) : CertRevocationResult :=
  { result := Result.Unknown,
    serverResults := [{ result := Result.Unknown, server := crlURL, error := some msg }] }

/-- The URL loop of CertCheckStatus (crl.go lines 128-191), including the
post-loop aggregation: an error at any step aborts with a single Unknown
ServerResult for the current URL, a Revoked resolution returns immediately
with that single ServerResult, and a completed loop returns OK with the
accumulated per-URL results. -/
def certCheckStatusLoop (env : CRLEnv) (cert : Certificate) (fetch : String → Except String Bundle)
    (signingTime : Nat) (hasFreshestCRLInCertificate : Bool) :
    List String → List ServerResult → CertRevocationResult
  | [], serverResults => { result := Result.OK, serverResults := serverResults }
  | crlURL :: rest, serverResults =>
    match fetch crlURL with
    | .error e => unknownServerResult crlURL ("failed to download CRL from " ++ crlURL ++ ": " ++ e)
    | .ok bundle =>
      if hasFreshestCRLInCertificate && bundle.deltaCRL.isNone then
        unknownServerResult crlURL ("freshest CRL from certificate extension is not supported")
      else
        match validate env bundle with
        | .error e => unknownServerResult crlURL ("failed to validate CRL from " ++ crlURL ++ ": " ++ e)
        | .ok _ =>
          match checkRevocation env cert bundle signingTime crlURL with
          | .error e => unknownServerResult crlURL ("failed to check revocation status from " ++ crlURL ++ ": " ++ e)
          | .ok crlResult =>
            if crlResult.result = Result.Revoked then
              { result := Result.Revoked, serverResults := [crlResult] }
            else
              certCheckStatusLoop env cert fetch signingTime hasFreshestCRLInCertificate rest (serverResults ++ [crlResult])

/-- Presence of the freshest CRL extension on the certificate
(crl.go line 118). -/
def hasFreshestCRLInCertificate (cert : Certificate) : Bool :=
  (findExtensionByOID cert.extensions oidFreshestCRL).isSome

/-- Options of CertCheckStatus (crl.go lines 71-78): the fetcher (none
models a nil Fetcher) and the signing time. -/
structure CertCheckStatusOptions where
  fetcher : Option (String → Except String Bundle)
  signingTime : Nat

/-- CertCheckStatus (crl.go lines 88-192). -/
def CertCheckStatus (env : CRLEnv) (cert : Certificate) (opts : CertCheckStatusOptions) : CertRevocationResult :=
  if !Supported cert then
    { result := Result.NonRevokable,
      serverResults := [{ result := Result.NonRevokable, server := "", error := some ("CRL is not supported") }] }
  else
    match opts.fetcher with
    | none =>
      { result := Result.Unknown,
        serverResults := [{ result := Result.Unknown, server := "", error := some ("CRL fetcher cannot be nil") }] }
    | some fetch =>
      certCheckStatusLoop env cert fetch opts.signingTime (hasFreshestCRLInCertificate cert) cert.crlDistributionPoints []

/-- The matching entries of spec section 4.5 step 2: the merged sequence
filtered to the entries whose serial number equals the certificate serial
number, in sequence order. -/
def filterMatching (cert : Certificate) (entries : List RevocationListEntry) : List RevocationListEntry :=
  entries.filter (fun e => e.serialNumber == cert.serialNumber)

/-- Fold of updateLatest over a list of entries, starting from a tracked
candidate. -/
def trackFold (latest : Option RevocationListEntry) (entries : List RevocationListEntry) : Option RevocationListEntry :=
  entries.foldl updateLatest latest

/-- Specification-side definition following spec section 4.5 steps 3 and 5:
the tracked latestTempEntry after the walk is the result of folding the
replacement rule of updateLatest over the matching entries, starting from
none. -/
def latestTempEntrySpec (cert : Certificate) (b : Bundle) : Option RevocationListEntry :=
  trackFold none (filterMatching cert (mergedEntries b))

/-- Specification-side definition following spec section 4.5 step 5: the
status reported after the walk from the tracked entry — Revoked exactly
when a tracked entry exists and its reason code is certificateHold. -/
def finalStatus : Option RevocationListEntry → Result
  | some e => if e.reasonCode = reasonCodeCertificateHold then Result.Revoked else Result.OK
  | none => Result.OK

/-- The condition under which the walk of checkRevocation continues past an
entry: either the entry does not match the certificate serial number, or
its extensions parse, the invalidity-date short circuit does not fire, and
its reason code is certificateHold or removeFromCRL. -/
def ContinuesWalk (env : CRLEnv) (cert : Certificate) (signingTime : Nat) (e : RevocationListEntry) : Prop :=
  e.serialNumber = cert.serialNumber →
    ∃ extensions, parseEntryExtensions env e = .ok extensions ∧
      ¬(signingTime ≠ 0 ∧ extensions.invalidityDate ≠ 0 ∧ signingTime < extensions.invalidityDate) ∧
      (e.reasonCode = reasonCodeCertificateHold ∨ e.reasonCode = reasonCodeRemoveFromCRL)

/-- The condition under which the URL loop of CertCheckStatus moves past a
URL and keeps going: the fetch succeeds, the freshest-CRL guard does not
fire, the bundle validates, and revocation resolution succeeds with a
status other than Revoked. -/
def okStep (env : CRLEnv) (cert : Certificate) (fetch : String → Except String Bundle)
    (signingTime : Nat) (hf : Bool) (crlURL : String) : Prop :=
  ∃ bundle sr, fetch crlURL = .ok bundle ∧
    (hf && bundle.deltaCRL.isNone) = false ∧
    validate env bundle = .ok () ∧
    checkRevocation env cert bundle signingTime crlURL = .ok sr ∧
    sr.result ≠ Result.Revoked

/-- Well-formedness of one entry extension for parseEntryExtensions: an
invalidity-date extension must decode with no remaining bytes, any other
extension must be non-critical. -/
def ExtensionWellFormed (env : CRLEnv) (ext : Extension) : Prop :=
  if ext.id = oidInvalidityDate then
    ∃ t, env.unmarshalGeneralizedTime ext.value = some (t, [])
  else
    ext.critical = false

/-- One step of the specification-side invalidity-date fold: a fully
decoded invalidity-date extension overwrites the held value, every other
extension leaves it unchanged. -/
def invDateStep (env : CRLEnv) (a : Nat) (ext : Extension) : Nat :=
  if ext.id = oidInvalidityDate then
    match env.unmarshalGeneralizedTime ext.value with
    | some (t, []) => t
    | _ => a
  else a

/-- Specification-side fold computing the invalidity date held after
scanning a list of entry extensions: each successfully and fully decoded
invalidity-date extension overwrites the held value. -/
def invDateFold (env : CRLEnv) (a : Nat) (l : List Extension) : Nat :=
  l.foldl (invDateStep env) a

/-- Concrete environment used by the witnesses: every signature verifies,
the clock reads 10, an ASN.1 integer value is a singleton byte list, and a
generalized time value decodes its first byte as the time and leaves the
remaining bytes undecoded. -/
def testEnv : CRLEnv :=
  { checkSignatureFrom := fun _ => none,
    now := 10,
    readASN1Integer := fun bs =>
      match bs with
      | [n] => some (Int.ofNat n)
      | _ => none,
    unmarshalGeneralizedTime := fun bs =>
      match bs with
      | t :: rest => some (t, rest)
      | [] => none }

/-- Witness certificate: serial number 42, one distribution point URL, no
extensions. -/
def certA : Certificate :=
  { serialNumber := 42, crlDistributionPoints := ["u1"], extensions := [] }

/-- Witness entry for serial 42, reason keyCompromise, carrying an
invalidity-date extension decoding to time 7. -/
def entryInvalidity42 : RevocationListEntry :=
  { serialNumber := 42, revocationTime := 1, reasonCode := 1,
    extensions := [{ id := oidInvalidityDate, critical := false, value := [7] }] }

/-- Witness entry for serial 42, reason keyCompromise, no extensions. -/
def entryKeyCompromise42 : RevocationListEntry :=
  { serialNumber := 42, revocationTime := 1, reasonCode := 1, extensions := [] }

/-- Witness entry for serial 42, reason unspecified, no extensions. -/
def entryUnspecified42 : RevocationListEntry :=
  { serialNumber := 42, revocationTime := 1, reasonCode := 0, extensions := [] }

/-- Witness entry for serial 42, reason certificateHold at time 1. -/
def entryHold42 : RevocationListEntry :=
  { serialNumber := 42, revocationTime := 1, reasonCode := 6, extensions := [] }

/-- Witness entry for serial 42, reason removeFromCRL at the strictly later
time 2. -/
def entryRemove42 : RevocationListEntry :=
  { serialNumber := 42, revocationTime := 2, reasonCode := 8, extensions := [] }

/-- Witness CRL builder: number, next update 100, given entries, no
extensions. -/
def mkCRL (number : Int) (entries : List RevocationListEntry) : RevocationList :=
  { number := number, nextUpdate := 100, revokedCertificateEntries := entries, extensions := [] }

/-- Witness bundle whose base CRL lists serial 42 with an invalidity-date
extension, no delta CRL. -/
def bundleInvalidity : Bundle :=
  { baseCRL := mkCRL 5 [entryInvalidity42], deltaCRL := none }

/-- Witness bundle: base CRL holds serial 42 at time 1, delta CRL removes
it from hold at the strictly later time 2. -/
def bundleHoldRemove : Bundle :=
  { baseCRL := mkCRL 5 [entryHold42], deltaCRL := some (mkCRL 6 [entryRemove42]) }

/-- Witness bundle whose base CRL lists serial 42 with reason unspecified,
no delta CRL. -/
def bundleUnspecified : Bundle :=
  { baseCRL := mkCRL 5 [entryUnspecified42], deltaCRL := none }

/-- Witness delta CRL of number 6 carrying a delta CRL indicator extension
whose value decodes to 5. -/
def deltaWithIndicator : RevocationList :=
  { number := 6, nextUpdate := 100, revokedCertificateEntries := [],
    extensions := [{ id := oidDeltaCRLIndicator, critical := true, value := [5] }] }

/-- Witness bundle with base CRL number 5 and a consistent delta CRL. -/
def bundleDelta : Bundle :=
  { baseCRL := mkCRL 5 [], deltaCRL := some deltaWithIndicator }

/-- Witness bundle whose base CRL lists serial 42 with reason
keyCompromise, no delta CRL. -/
def bundleKeyCompromise : Bundle :=
  { baseCRL := mkCRL 5 [entryKeyCompromise42], deltaCRL := none }

/-- Witness fetcher answering every URL with bundleKeyCompromise. -/
def fetchRevoked : String → Except String Bundle :=
  fun _ => .ok bundleKeyCompromise

/-- Witness fetcher failing every URL. -/
def fetchBoom : String → Except String Bundle :=
  fun _ => .error ("boom")

/-- Witness CRL whose next-update time equals the clock reading of
testEnv. -/
def crlBoundary : RevocationList :=
  { number := 1, nextUpdate := 10, revokedCertificateEntries := [], extensions := [] }

/-- Witness CRL whose next-update time is the zero time. -/
def crlZeroNextUpdate : RevocationList :=
  { number := 1, nextUpdate := 0, revokedCertificateEntries := [], extensions := [] }

/-- Witness CRL carrying a critical issuing distribution point extension
and an unrecognized non-critical extension. -/
def crlWithIDPCritical : RevocationList :=
  { number := 1, nextUpdate := 100, revokedCertificateEntries := [],
    extensions := [{ id := oidIssuingDistributionPoint, critical := true, value := [] },
                   { id := [1, 2, 3], critical := false, value := [1] }] }

/-- Witness entry carrying only an unrecognized non-critical extension. -/
def entryOtherExt : RevocationListEntry :=
  { serialNumber := 42, revocationTime := 1, reasonCode := 1,
    extensions := [{ id := [1, 2, 3], critical := false, value := [9] }] }

/-- Witness entry carrying two invalidity-date extensions decoding to 3 and
then to 9. -/
def entryTwoInvalidity : RevocationListEntry :=
  { serialNumber := 42, revocationTime := 1, reasonCode := 1,
    extensions := [{ id := oidInvalidityDate, critical := false, value := [3] },
                   { id := oidInvalidityDate, critical := false, value := [9] }] }

/-- Helper for the walk lemmas: an entry of the prefix either does not
match or is a temporary entry letting the walk continue, so the walk over
a list with that prefix reaches the remaining entries with some tracked
candidate. -/
theorem checkRevocationLoop_walks (env : CRLEnv) (cert : Certificate) (signingTime : Nat) (crlURL : String) :
    ∀ (l1 : List RevocationListEntry), (∀ x ∈ l1, ContinuesWalk env cert signingTime x) →
    ∀ (rest : List RevocationListEntry) (latest : Option RevocationListEntry),
    ∃ latest2, checkRevocationLoop env cert signingTime crlURL (l1 ++ rest) latest =
      checkRevocationLoop env cert signingTime crlURL rest latest2 := by
  intro l1
  induction l1 with
  | nil =>
    intro _ rest latest
    exact ⟨latest, rfl⟩
  | cons e l1 ih =>
    intro h rest latest
    by_cases hs : e.serialNumber = cert.serialNumber
    · obtain ⟨exts, hp, hnt, hr⟩ := h e (List.mem_cons_self e l1) hs
      have hstep : checkRevocationLoop env cert signingTime crlURL ((e :: l1) ++ rest) latest =
          checkRevocationLoop env cert signingTime crlURL (l1 ++ rest) (updateLatest latest e) := by
        simp only [List.cons_append, checkRevocationLoop, if_pos hs, hp]
        rw [if_neg hnt, if_pos hr]
        rfl
      rw [hstep]
      exact ih (fun x hx => h x (List.mem_cons_of_mem e hx)) rest (updateLatest latest e)
    · have hstep : checkRevocationLoop env cert signingTime crlURL ((e :: l1) ++ rest) latest =
          checkRevocationLoop env cert signingTime crlURL (l1 ++ rest) latest := by
        simp only [List.cons_append, checkRevocationLoop, if_neg hs]
        rfl
      rw [hstep]
      exact ih (fun x hx => h x (List.mem_cons_of_mem e hx)) rest latest

/-- Helper: over a list all of whose entries let the walk continue, the
walk terminates in the post-walk branch, and the reported status is the
final status of folding the replacement rule over the matching entries. -/
theorem checkRevocationLoop_resolves (env : CRLEnv) (cert : Certificate) (signingTime : Nat) (crlURL : String) :
    ∀ (l : List RevocationListEntry), (∀ x ∈ l, ContinuesWalk env cert signingTime x) →
    ∀ (latest : Option RevocationListEntry),
    checkRevocationLoop env cert signingTime crlURL l latest =
      .ok { result := finalStatus (trackFold latest (filterMatching cert l)), server := crlURL, error := none } := by
  intro l
  induction l with
  | nil =>
    intro _ latest
    cases latest with
    | none => rfl
    | some e =>
      by_cases h6 : e.reasonCode = reasonCodeCertificateHold
      · simp [checkRevocationLoop, trackFold, filterMatching, finalStatus, h6]
      · simp [checkRevocationLoop, trackFold, filterMatching, finalStatus, h6]
  | cons e l ih =>
    intro h latest
    by_cases hs : e.serialNumber = cert.serialNumber
    · obtain ⟨exts, hp, hnt, hr⟩ := h e (List.mem_cons_self e l) hs
      have hfil : filterMatching cert (e :: l) = e :: filterMatching cert l := by
        simp [filterMatching, List.filter_cons, hs]
      have hstep : checkRevocationLoop env cert signingTime crlURL (e :: l) latest =
          checkRevocationLoop env cert signingTime crlURL l (updateLatest latest e) := by
        simp only [checkRevocationLoop, if_pos hs, hp]
        rw [if_neg hnt, if_pos hr]
      rw [hstep, ih (fun x hx => h x (List.mem_cons_of_mem e hx)) (updateLatest latest e), hfil]
      rfl
    · have hfil : filterMatching cert (e :: l) = filterMatching cert l := by
        simp [filterMatching, List.filter_cons, hs]
      have hstep : checkRevocationLoop env cert signingTime crlURL (e :: l) latest =
          checkRevocationLoop env cert signingTime crlURL l latest := by
        simp only [checkRevocationLoop, if_neg hs]
      rw [hstep, ih (fun x hx => h x (List.mem_cons_of_mem e hx)) latest, hfil]

/-- C1: for every certificate, bundle and non-zero signing time, when the
walk over the matching entries of the merged sequence reaches an entry e
that is the first one carrying a non-zero invalidity date (every earlier
matching entry parses to the zero invalidity date and carries a
certificateHold or removeFromCRL reason, so the walk reaches e), and the
signing time is strictly before that invalidity date, checkRevocation
reports OK immediately, regardless of the reason code of e and of any
later entries of the merged sequence. -/
theorem checkRevocation_invalidity_date_short_circuit
    (env : CRLEnv) (cert : Certificate) (b : Bundle) (signingTime : Nat) (crlURL : String)
    (l1 l2 : List RevocationListEntry) (e : RevocationListEntry) (d : Nat)
    (hmerge : mergedEntries b = l1 ++ e :: l2)
    (hfirst : ∀ x ∈ l1, x.serialNumber = cert.serialNumber →
      parseEntryExtensions env x = .ok { invalidityDate := 0 } ∧
      (x.reasonCode = reasonCodeCertificateHold ∨ x.reasonCode = reasonCodeRemoveFromCRL))
    (hser : e.serialNumber = cert.serialNumber)
    (hparse : parseEntryExtensions env e = .ok { invalidityDate := d })
    (hd : d ≠ 0) (hst : signingTime ≠ 0) (hlt : signingTime < d) :
    checkRevocation env cert b signingTime crlURL =
      .ok { result := Result.OK, server := crlURL, error := none } := by
  unfold checkRevocation
  rw [hmerge]
  have hcw : ∀ x ∈ l1, ContinuesWalk env cert signingTime x := by
    intro x hx hs
    obtain ⟨hp, hr⟩ := hfirst x hx hs
    exact ⟨{ invalidityDate := 0 }, hp, by simp, hr⟩
  obtain ⟨latest2, heq⟩ := checkRevocationLoop_walks env cert signingTime crlURL l1 hcw (e :: l2) none
  rw [heq]
  simp only [checkRevocationLoop, if_pos hser, hparse]
  rw [if_pos ⟨hst, hd, hlt⟩]

/-- C1 witness: serial 42 is listed with reason keyCompromise and an
invalidity date of 7, the signing time 3 is strictly earlier, so the
status is OK. -/
theorem checkRevocation_invalidity_date_short_circuit_witness :
    checkRevocation testEnv certA bundleInvalidity 3 "u1" =
      .ok { result := Result.OK, server := "u1", error := none } :=
  checkRevocation_invalidity_date_short_circuit testEnv certA bundleInvalidity 3 "u1" [] []
    entryInvalidity42 7 rfl
    (by intro x hx; exact absurd hx (List.not_mem_nil x))
    rfl rfl (by decide) (by decide) (by decide)

/-- C2: for every certificate and bundle whose matching entries all have
reason code certificateHold or removeFromCRL, parse, and do not trigger
the invalidity-date short circuit, checkRevocation finishes the walk and
reports the final status of the tracked entry, where the tracked entry is
the fold of the strict-replacement rule over the matching entries in merge
order; the status is Revoked exactly when the tracked entry exists and its
reason code is certificateHold, and OK when no entry is tracked. -/
theorem checkRevocation_temp_entries_resolution
    (env : CRLEnv) (cert : Certificate) (b : Bundle) (signingTime : Nat) (crlURL : String)
    (h : ∀ x ∈ mergedEntries b, ContinuesWalk env cert signingTime x) :
    checkRevocation env cert b signingTime crlURL =
      .ok { result := finalStatus (latestTempEntrySpec cert b), server := crlURL, error := none } ∧
    (∀ e, latestTempEntrySpec cert b = some e →
      (finalStatus (latestTempEntrySpec cert b) = Result.Revoked ↔ e.reasonCode = reasonCodeCertificateHold)) ∧
    (latestTempEntrySpec cert b = none → finalStatus (latestTempEntrySpec cert b) = Result.OK) := by
  refine ⟨?_, ?_, ?_⟩
  · unfold checkRevocation latestTempEntrySpec
    exact checkRevocationLoop_resolves env cert signingTime crlURL (mergedEntries b) h none
  · intro e he
    rw [he]
    unfold finalStatus
    by_cases h6 : e.reasonCode = reasonCodeCertificateHold
    · simp [h6]
    · simp [h6]
  · intro he
    rw [he]
    rfl

/-- C2 witness: serial 42 is held in the base CRL at time 1 and removed
from hold by the delta CRL at the strictly later time 2, so the tracked
entry is the removeFromCRL one and the status is OK. -/
theorem checkRevocation_temp_entries_resolution_witness :
    checkRevocation testEnv certA bundleHoldRemove 0 "u1" =
      .ok { result := Result.OK, server := "u1", error := none } := by
  have h := checkRevocation_temp_entries_resolution testEnv certA bundleHoldRemove 0 "u1"
    (by
      intro x hx hs
      refine ⟨{ invalidityDate := 0 }, ?_, by simp, ?_⟩
      · have : x = entryHold42 ∨ x = entryRemove42 := by
          simpa [mergedEntries, bundleHoldRemove, mkCRL] using hx
        rcases this with h1 | h1 <;> subst h1 <;> rfl
      · have : x = entryHold42 ∨ x = entryRemove42 := by
          simpa [mergedEntries, bundleHoldRemove, mkCRL] using hx
        rcases this with h1 | h1 <;> subst h1
        · exact Or.inl rfl
        · exact Or.inr rfl)
  rw [h.1]
  rfl

/-- C3: the first matching entry reached in merge order whose reason code
is neither certificateHold nor removeFromCRL and which does not trigger
the invalidity-date short circuit (all earlier matching entries parse, do
not trigger the short circuit, and carry hold or remove reasons, so the
walk reaches it) makes checkRevocation report Revoked immediately, for
every continuation of the merged sequence after that entry. -/
theorem checkRevocation_permanent_reason_short_circuit
    (env : CRLEnv) (cert : Certificate) (b : Bundle) (signingTime : Nat) (crlURL : String)
    (l1 l2 : List RevocationListEntry) (e : RevocationListEntry) (exts : EntryExtensions)
    (hmerge : mergedEntries b = l1 ++ e :: l2)
    (hwalk : ∀ x ∈ l1, ContinuesWalk env cert signingTime x)
    (hser : e.serialNumber = cert.serialNumber)
    (hparse : parseEntryExtensions env e = .ok exts)
    (hnt : ¬(signingTime ≠ 0 ∧ exts.invalidityDate ≠ 0 ∧ signingTime < exts.invalidityDate))
    (hhold : e.reasonCode ≠ reasonCodeCertificateHold)
    (hremove : e.reasonCode ≠ reasonCodeRemoveFromCRL) :
    checkRevocation env cert b signingTime crlURL =
      .ok { result := Result.Revoked, server := crlURL, error := none } := by
  unfold checkRevocation
  rw [hmerge]
  obtain ⟨latest2, heq⟩ := checkRevocationLoop_walks env cert signingTime crlURL l1 hwalk (e :: l2) none
  rw [heq]
  simp only [checkRevocationLoop, if_pos hser, hparse]
  rw [if_neg hnt, if_neg (by rintro (h6 | h8); exact hhold h6; exact hremove h8)]

/-- C3 witness: serial 42 is listed with the reason code unspecified and no
invalidity date, so the status is Revoked. -/
theorem checkRevocation_permanent_reason_short_circuit_witness :
    checkRevocation testEnv certA bundleUnspecified 0 "u1" =
      .ok { result := Result.Revoked, server := "u1", error := none } :=
  checkRevocation_permanent_reason_short_circuit testEnv certA bundleUnspecified 0 "u1" [] []
    entryUnspecified42 { invalidityDate := 0 } rfl
    (by intro x hx; exact absurd hx (List.not_mem_nil x))
    rfl rfl (by simp) (by decide) (by decide)

/-- Helper: the URL loop moves past every URL satisfying okStep,
accumulating per-URL results, and then continues with the remaining
URLs. -/
theorem certCheckStatusLoop_walks (env : CRLEnv) (cert : Certificate)
    (fetch : String → Except String Bundle) (signingTime : Nat) (hf : Bool) :
    ∀ (u1 : List String), (∀ x ∈ u1, okStep env cert fetch signingTime hf x) →
    ∀ (rest : List String) (acc : List ServerResult),
    ∃ acc2, certCheckStatusLoop env cert fetch signingTime hf (u1 ++ rest) acc =
      certCheckStatusLoop env cert fetch signingTime hf rest acc2 := by
  intro u1
  induction u1 with
  | nil =>
    intro _ rest acc
    exact ⟨acc, rfl⟩
  | cons u u1 ih =>
    intro h rest acc
    obtain ⟨bundle, sr, hb, hfr, hval, hrev, hnr⟩ := h u (List.mem_cons_self u u1)
    have hstep : certCheckStatusLoop env cert fetch signingTime hf ((u :: u1) ++ rest) acc =
        certCheckStatusLoop env cert fetch signingTime hf (u1 ++ rest) (acc ++ [sr]) := by
      simp only [List.cons_append, certCheckStatusLoop, hb, hfr, hval, hrev]
      simp [hnr]
    rw [hstep]
    exact ih (fun x hx => h x (List.mem_cons_of_mem u hx)) rest (acc ++ [sr])

/-- Helper: when the bundle of some URL resolves to Revoked after a run of
URLs satisfying okStep, the URL loop returns Revoked with exactly that one
per-URL result, whatever was accumulated before. -/
theorem certCheckStatusLoop_revoked (env : CRLEnv) (cert : Certificate)
    (fetch : String → Except String Bundle) (signingTime : Nat) (hf : Bool)
    (u1 : List String) (u : String) (u2 : List String) (bundle : Bundle) (sr : ServerResult)
    (hok : ∀ x ∈ u1, okStep env cert fetch signingTime hf x)
    (hb : fetch u = .ok bundle)
    (hfr : (hf && bundle.deltaCRL.isNone) = false)
    (hval : validate env bundle = .ok ())
    (hrev : checkRevocation env cert bundle signingTime u = .ok sr)
    (hr : sr.result = Result.Revoked) :
    ∀ acc, certCheckStatusLoop env cert fetch signingTime hf (u1 ++ u :: u2) acc =
      { result := Result.Revoked, serverResults := [sr] } := by
  intro acc
  obtain ⟨acc2, heq⟩ := certCheckStatusLoop_walks env cert fetch signingTime hf u1 hok (u :: u2) acc
  rw [heq]
  simp [certCheckStatusLoop, hb, hfr, hval, hrev, hr]

/-- Helper: when processing some URL fails after a run of URLs satisfying
okStep, the URL loop aborts with a single Unknown per-URL result carrying
the triggering error message for that URL, whatever was accumulated
before. -/
theorem certCheckStatusLoop_aborts (env : CRLEnv) (cert : Certificate)
    (fetch : String → Except String Bundle) (signingTime : Nat) (hf : Bool)
    (u1 : List String) (u : String) (u2 : List String) (msg : String)
    (hok : ∀ x ∈ u1, okStep env cert fetch signingTime hf x)
    (herr :
      (∃ e, fetch u = .error e ∧ msg = "failed to download CRL from " ++ u ++ ": " ++ e) ∨
      (∃ bundle, fetch u = .ok bundle ∧ (hf && bundle.deltaCRL.isNone) = true ∧
        msg = "freshest CRL from certificate extension is not supported") ∨
      (∃ bundle e, fetch u = .ok bundle ∧ (hf && bundle.deltaCRL.isNone) = false ∧
        validate env bundle = .error e ∧ msg = "failed to validate CRL from " ++ u ++ ": " ++ e) ∨
      (∃ bundle e, fetch u = .ok bundle ∧ (hf && bundle.deltaCRL.isNone) = false ∧
        validate env bundle = .ok () ∧ checkRevocation env cert bundle signingTime u = .error e ∧
        msg = "failed to check revocation status from " ++ u ++ ": " ++ e)) :
    ∀ acc, certCheckStatusLoop env cert fetch signingTime hf (u1 ++ u :: u2) acc =
      unknownServerResult u msg := by
  intro acc
  obtain ⟨acc2, heq⟩ := certCheckStatusLoop_walks env cert fetch signingTime hf u1 hok (u :: u2) acc
  rw [heq]
  rcases herr with ⟨e, hb, hm⟩ | ⟨bundle, hb, hfr, hm⟩ | ⟨bundle, e, hb, hfr, hval, hm⟩ |
    ⟨bundle, e, hb, hfr, hval, hrev, hm⟩
  · subst hm
    simp [certCheckStatusLoop, hb]
  · subst hm
    simp [certCheckStatusLoop, hb, hfr]
  · subst hm
    simp [certCheckStatusLoop, hb, hfr, hval]
  · subst hm
    simp [certCheckStatusLoop, hb, hfr, hval, hrev]

/-- Helper: a list of distribution points decomposing around a URL is
non-empty, so the certificate is supported. -/
theorem supported_of_decomp (cert : Certificate) (u1 : List String) (u : String) (u2 : List String)
    (hurls : cert.crlDistributionPoints = u1 ++ u :: u2) :
    Supported cert = true := by
  simp only [Supported, hurls]
  cases u1 <;> rfl

/-- C5: for every certificate whose distribution points decompose as a run
of URLs that fetch, validate and resolve to a non-Revoked status, followed
by a URL whose bundle resolves to Revoked, CertCheckStatus returns Revoked
with exactly the one per-URL result of the revoking URL; moreover the
outcome is unchanged for any fetcher agreeing on the URLs up to and
including the revoking one, so the fetcher is never consulted for later
URLs. -/
theorem certCheckStatus_revoked_short_circuit (env : CRLEnv) (cert : Certificate)
    (fetch : String → Except String Bundle) (signingTime : Nat)
    (u1 : List String) (u : String) (u2 : List String) (bundle : Bundle) (sr : ServerResult)
    (hurls : cert.crlDistributionPoints = u1 ++ u :: u2)
    (hok : ∀ x ∈ u1, okStep env cert fetch signingTime (hasFreshestCRLInCertificate cert) x)
    (hb : fetch u = .ok bundle)
    (hfr : (hasFreshestCRLInCertificate cert && bundle.deltaCRL.isNone) = false)
    (hval : validate env bundle = .ok ())
    (hrev : checkRevocation env cert bundle signingTime u = .ok sr)
    (hr : sr.result = Result.Revoked) :
    CertCheckStatus env cert { fetcher := some fetch, signingTime := signingTime } =
      { result := Result.Revoked, serverResults := [sr] } ∧
    ∀ fetch2 : String → Except String Bundle,
      (∀ x ∈ u1, fetch2 x = fetch x) → fetch2 u = fetch u →
      CertCheckStatus env cert { fetcher := some fetch2, signingTime := signingTime } =
        { result := Result.Revoked, serverResults := [sr] } := by
  have hsup := supported_of_decomp cert u1 u u2 hurls
  constructor
  · simp only [CertCheckStatus, hsup, Bool.not_true, Bool.false_eq_true, if_false, hurls]
    exact certCheckStatusLoop_revoked env cert fetch signingTime (hasFreshestCRLInCertificate cert)
      u1 u u2 bundle sr hok hb hfr hval hrev hr []
  · intro fetch2 hagree hagreeu
    have hok2 : ∀ x ∈ u1, okStep env cert fetch2 signingTime (hasFreshestCRLInCertificate cert) x := by
      intro x hx
      obtain ⟨bdl, sr2, hb2, hfr2, hval2, hrev2, hnr2⟩ := hok x hx
      exact ⟨bdl, sr2, by rw [hagree x hx]; exact hb2, hfr2, hval2, hrev2, hnr2⟩
    have hb2 : fetch2 u = .ok bundle := by rw [hagreeu]; exact hb
    simp only [CertCheckStatus, hsup, Bool.not_true, Bool.false_eq_true, if_false, hurls]
    exact certCheckStatusLoop_revoked env cert fetch2 signingTime (hasFreshestCRLInCertificate cert)
      u1 u u2 bundle sr hok2 hb2 hfr hval hrev hr []

/-- C5 witness: one distribution point whose bundle lists serial 42 with
reason keyCompromise, so the overall status is Revoked with that single
per-URL result. -/
theorem certCheckStatus_revoked_short_circuit_witness :
    CertCheckStatus testEnv certA { fetcher := some fetchRevoked, signingTime := 0 } =
      { result := Result.Revoked,
        serverResults := [{ result := Result.Revoked, server := "u1", error := none }] } :=
  (certCheckStatus_revoked_short_circuit testEnv certA fetchRevoked 0 [] "u1" []
    bundleKeyCompromise { result := Result.Revoked, server := "u1", error := none }
    rfl (by intro x hx; exact absurd hx (List.not_mem_nil x))
    rfl rfl rfl rfl rfl).1

/-- C6: for every certificate whose distribution points decompose as a run
of URLs that fetch, validate and resolve to a non-Revoked status, followed
by a URL at which a step fails (fetch error, unmet freshest-CRL pointer,
validation failure, or resolution failure), CertCheckStatus returns
Unknown with exactly one per-URL result carrying the triggering error
message and that URL — the accumulated OK results are discarded — and the
outcome is unchanged for any fetcher agreeing on the URLs up to and
including the failing one, so later URLs are not visited. -/
theorem certCheckStatus_error_aborts (env : CRLEnv) (cert : Certificate)
    (fetch : String → Except String Bundle) (signingTime : Nat)
    (u1 : List String) (u : String) (u2 : List String) (msg : String)
    (hurls : cert.crlDistributionPoints = u1 ++ u :: u2)
    (hok : ∀ x ∈ u1, okStep env cert fetch signingTime (hasFreshestCRLInCertificate cert) x)
    (herr :
      (∃ e, fetch u = .error e ∧ msg = "failed to download CRL from " ++ u ++ ": " ++ e) ∨
      (∃ bundle, fetch u = .ok bundle ∧
        (hasFreshestCRLInCertificate cert && bundle.deltaCRL.isNone) = true ∧
        msg = "freshest CRL from certificate extension is not supported") ∨
      (∃ bundle e, fetch u = .ok bundle ∧
        (hasFreshestCRLInCertificate cert && bundle.deltaCRL.isNone) = false ∧
        validate env bundle = .error e ∧ msg = "failed to validate CRL from " ++ u ++ ": " ++ e) ∨
      (∃ bundle e, fetch u = .ok bundle ∧
        (hasFreshestCRLInCertificate cert && bundle.deltaCRL.isNone) = false ∧
        validate env bundle = .ok () ∧ checkRevocation env cert bundle signingTime u = .error e ∧
        msg = "failed to check revocation status from " ++ u ++ ": " ++ e)) :
    CertCheckStatus env cert { fetcher := some fetch, signingTime := signingTime } =
      { result := Result.Unknown,
        serverResults := [{ result := Result.Unknown, server := u, error := some msg }] } ∧
    ∀ fetch2 : String → Except String Bundle,
      (∀ x ∈ u1, fetch2 x = fetch x) → fetch2 u = fetch u →
      CertCheckStatus env cert { fetcher := some fetch2, signingTime := signingTime } =
        { result := Result.Unknown,
          serverResults := [{ result := Result.Unknown, server := u, error := some msg }] } := by
  have hsup := supported_of_decomp cert u1 u u2 hurls
  constructor
  · simp only [CertCheckStatus, hsup, Bool.not_true, Bool.false_eq_true, if_false, hurls]
    exact certCheckStatusLoop_aborts env cert fetch signingTime (hasFreshestCRLInCertificate cert)
      u1 u u2 msg hok herr []
  · intro fetch2 hagree hagreeu
    have hok2 : ∀ x ∈ u1, okStep env cert fetch2 signingTime (hasFreshestCRLInCertificate cert) x := by
      intro x hx
      obtain ⟨bdl, sr2, hb2, hfr2, hval2, hrev2, hnr2⟩ := hok x hx
      exact ⟨bdl, sr2, by rw [hagree x hx]; exact hb2, hfr2, hval2, hrev2, hnr2⟩
    have herr2 := herr
    rw [← hagreeu] at herr2
    simp only [CertCheckStatus, hsup, Bool.not_true, Bool.false_eq_true, if_false, hurls]
    exact certCheckStatusLoop_aborts env cert fetch2 signingTime (hasFreshestCRLInCertificate cert)
      u1 u u2 msg hok2 herr2 []

/-- C6 witness: one distribution point whose fetch fails, so the overall
status is Unknown with a single per-URL result carrying the download
error. -/
theorem certCheckStatus_error_aborts_witness :
    CertCheckStatus testEnv certA { fetcher := some fetchBoom, signingTime := 0 } =
      { result := Result.Unknown,
        serverResults := [{ result := Result.Unknown,
                            server := "u1",
                            error := some ("failed to download CRL from u1: boom") }] } :=
  (certCheckStatus_error_aborts testEnv certA fetchBoom 0 [] "u1" []
    ("failed to download CRL from u1: boom")
    rfl (by intro x hx; exact absurd hx (List.not_mem_nil x))
    (Or.inl ⟨"boom", rfl, rfl⟩)).1

/-- C4: for every bundle with a delta CRL whose base and delta CRLs both
pass per-CRL validation, validate succeeds exactly when the delta number
is strictly greater than the base number, a delta CRL indicator extension
is present on the delta CRL, its value decodes as an ASN.1 integer, and
the decoded minimum base CRL number is at most the base number; each of
the four violations yields its own descriptive error. -/
theorem validate_delta_consistency (env : CRLEnv) (b : Bundle) (deltaCRL : RevocationList)
    (hdelta : b.deltaCRL = some deltaCRL)
    (hbase : validateCRL env b.baseCRL = .ok ())
    (hdel : validateCRL env deltaCRL = .ok ()) :
    (validate env b = .ok () ↔
      b.baseCRL.number < deltaCRL.number ∧
      ∃ ext, findExtensionByOID deltaCRL.extensions oidDeltaCRLIndicator = some ext ∧
        ∃ m, env.readASN1Integer ext.value = some m ∧ m ≤ b.baseCRL.number) ∧
    (deltaCRL.number ≤ b.baseCRL.number →
      validate env b = .error ("delta CRL number " ++ toString deltaCRL.number ++
        " is not greater than the base CRL number " ++ toString b.baseCRL.number)) ∧
    (b.baseCRL.number < deltaCRL.number →
      findExtensionByOID deltaCRL.extensions oidDeltaCRLIndicator = none →
      validate env b = .error ("delta CRL indicator extension is not found")) ∧
    (∀ ext, b.baseCRL.number < deltaCRL.number →
      findExtensionByOID deltaCRL.extensions oidDeltaCRLIndicator = some ext →
      env.readASN1Integer ext.value = none →
      validate env b = .error ("failed to parse delta CRL indicator extension")) ∧
    (∀ ext m, b.baseCRL.number < deltaCRL.number →
      findExtensionByOID deltaCRL.extensions oidDeltaCRLIndicator = some ext →
      env.readASN1Integer ext.value = some m → b.baseCRL.number < m →
      validate env b = .error ("delta CRL indicator " ++ toString m ++
        " is not less than or equal to the base CRL number " ++ toString b.baseCRL.number)) := by
  have hv : validate env b =
      (if deltaCRL.number ≤ b.baseCRL.number then
        .error ("delta CRL number " ++ toString deltaCRL.number ++
          " is not greater than the base CRL number " ++ toString b.baseCRL.number)
      else
        match findExtensionByOID deltaCRL.extensions oidDeltaCRLIndicator with
        | none => .error ("delta CRL indicator extension is not found")
        | some extension =>
          match env.readASN1Integer extension.value with
          | none => .error ("failed to parse delta CRL indicator extension")
          | some minimumBaseCRLNumber =>
            if b.baseCRL.number < minimumBaseCRLNumber then
              .error ("delta CRL indicator " ++ toString minimumBaseCRLNumber ++
                " is not less than or equal to the base CRL number " ++ toString b.baseCRL.number)
            else
              .ok ()) := by
    simp only [validate, hbase, hdelta, hdel]
  refine ⟨?_, ?_, ?_, ?_, ?_⟩
  · constructor
    · intro h
      rw [hv] at h
      split at h
      · exact absurd h (by simp)
      · rename_i h1
        split at h
        · exact absurd h (by simp)
        · rename_i ext hext
          split at h
          · exact absurd h (by simp)
          · rename_i m hm
            split at h
            · exact absurd h (by simp)
            · rename_i h2
              exact ⟨not_le.mp h1, ext, hext, m, hm, not_lt.mp h2⟩
    · rintro ⟨hnum, ext, hext, m, hm, hle⟩
      rw [hv, if_neg (not_le.mpr hnum)]
      simp only [hext, hm]
      rw [if_neg (not_lt.mpr hle)]
  · intro h1
    rw [hv, if_pos h1]
  · intro hnum hnone
    rw [hv, if_neg (not_le.mpr hnum)]
    simp only [hnone]
  · intro ext hnum hext hm
    rw [hv, if_neg (not_le.mpr hnum)]
    simp only [hext, hm]
  · intro ext m hnum hext hm hgt
    rw [hv, if_neg (not_le.mpr hnum)]
    simp only [hext, hm]
    rw [if_pos hgt]

/-- C4 witness: base CRL number 5, delta CRL number 6 carrying a delta CRL
indicator decoding to 5, so validation succeeds. -/
theorem validate_delta_consistency_witness :
    validate testEnv bundleDelta = .ok () :=
  (validate_delta_consistency testEnv bundleDelta deltaWithIndicator rfl rfl rfl).1.mpr
    ⟨by decide,
     { id := oidDeltaCRLIndicator, critical := true, value := [5] }, rfl,
     5, rfl, by decide⟩

/-- C7 counterexample: a CRL whose next-update time equals the current
clock reading — hence is not in the future — still passes validateCRL, so
requiring the next-update to be strictly in the future, with a time at or
before the current time treated as expired, does not hold of the code. -/
theorem validateCRL_nextUpdate_boundary_counterexample :
    validateCRL testEnv crlBoundary = .ok () ∧
    crlBoundary.nextUpdate ≠ 0 ∧
    ¬ testEnv.now < crlBoundary.nextUpdate :=
  ⟨rfl, by decide, by decide⟩

/-- C7 (amended): for every CRL whose signature verifies, validateCRL
succeeds only if the next-update time is set and is at or after the
current time; an unset next-update is an error, and a next-update strictly
before the current time is reported as an expired CRL. -/
theorem validateCRL_nextUpdate_policy (env : CRLEnv) (crl : RevocationList)
    (hsig : env.checkSignatureFrom crl = none) :
    (validateCRL env crl = .ok () → crl.nextUpdate ≠ 0 ∧ env.now ≤ crl.nextUpdate) ∧
    (crl.nextUpdate = 0 → validateCRL env crl = .error ("CRL NextUpdate is not set")) ∧
    (crl.nextUpdate ≠ 0 → crl.nextUpdate < env.now →
      validateCRL env crl = .error ("expired CRL. Current time " ++ toString env.now ++
        " is after CRL NextUpdate " ++ toString crl.nextUpdate)) := by
  have hv : validateCRL env crl =
      (if crl.nextUpdate = 0 then .error ("CRL NextUpdate is not set")
       else if crl.nextUpdate < env.now then
         .error ("expired CRL. Current time " ++ toString env.now ++
           " is after CRL NextUpdate " ++ toString crl.nextUpdate)
       else validateCRLExtensions crl.extensions) := by
    simp only [validateCRL, hsig]
  refine ⟨?_, ?_, ?_⟩
  · intro h
    rw [hv] at h
    by_cases h0 : crl.nextUpdate = 0
    · rw [if_pos h0] at h
      exact absurd h (by simp)
    · rw [if_neg h0] at h
      by_cases h1 : crl.nextUpdate < env.now
      · rw [if_pos h1] at h
        exact absurd h (by simp)
      · exact ⟨h0, not_lt.mp h1⟩
  · intro h0
    rw [hv, if_pos h0]
  · intro h0 h1
    rw [hv, if_neg h0, if_pos h1]

/-- C7 witness: a CRL with an unset next-update time fails validation with
the corresponding error. -/
theorem validateCRL_nextUpdate_policy_witness :
    validateCRL testEnv crlZeroNextUpdate = .error ("CRL NextUpdate is not set") :=
  (validateCRL_nextUpdate_policy testEnv crlZeroNextUpdate rfl).2.1 rfl

/-- Helper: characterization of the extension policy loop of validateCRL:
it succeeds exactly when every extension is the issuing distribution point
extension, the delta CRL indicator extension, or non-critical, and any
failure is the unsupported-critical-extension error of some offending
extension. -/
theorem validateCRLExtensions_policy :
    ∀ (exts : List Extension),
    (validateCRLExtensions exts = .ok () ↔
      ∀ ext ∈ exts, ext.id = oidIssuingDistributionPoint ∨ ext.id = oidDeltaCRLIndicator ∨
        ext.critical = false) ∧
    (∀ msg, validateCRLExtensions exts = .error msg →
      ∃ ext ∈ exts, ext.critical = true ∧ ext.id ≠ oidIssuingDistributionPoint ∧
        ext.id ≠ oidDeltaCRLIndicator ∧
        msg = "unsupported critical extension found in CRL: " ++ toString ext.id) := by
  intro exts
  induction exts with
  | nil =>
    constructor
    · simp [validateCRLExtensions]
    · intro msg h
      exact absurd h (by simp [validateCRLExtensions])
  | cons ext rest ih =>
    by_cases hidp : ext.id = oidIssuingDistributionPoint
    · have hstep : validateCRLExtensions (ext :: rest) = validateCRLExtensions rest := by
        simp [validateCRLExtensions, hidp]
      constructor
      · rw [hstep, ih.1]
        constructor
        · intro hall x hx
          rcases List.mem_cons.mp hx with h1 | h2
          · subst h1
            exact Or.inl hidp
          · exact hall x h2
        · intro hall x hx
          exact hall x (List.mem_cons_of_mem ext hx)
      · intro msg h
        rw [hstep] at h
        obtain ⟨x, hx, hrest⟩ := ih.2 msg h
        exact ⟨x, List.mem_cons_of_mem ext hx, hrest⟩
    · by_cases hdci : ext.id = oidDeltaCRLIndicator
      · have hstep : validateCRLExtensions (ext :: rest) = validateCRLExtensions rest := by
          simp [validateCRLExtensions, hidp, hdci]
        constructor
        · rw [hstep, ih.1]
          constructor
          · intro hall x hx
            rcases List.mem_cons.mp hx with h1 | h2
            · subst h1
              exact Or.inr (Or.inl hdci)
            · exact hall x h2
          · intro hall x hx
            exact hall x (List.mem_cons_of_mem ext hx)
        · intro msg h
          rw [hstep] at h
          obtain ⟨x, hx, hrest⟩ := ih.2 msg h
          exact ⟨x, List.mem_cons_of_mem ext hx, hrest⟩
      · by_cases hc : ext.critical = true
        · have hstep : validateCRLExtensions (ext :: rest) =
              .error ("unsupported critical extension found in CRL: " ++ toString ext.id) := by
            simp [validateCRLExtensions, hidp, hdci, hc]
          constructor
          · rw [hstep]
            constructor
            · intro h
              exact absurd h (by simp)
            · intro hall
              rcases hall ext (List.mem_cons_self ext rest) with h1 | h1 | h1
              · exact absurd h1 hidp
              · exact absurd h1 hdci
              · rw [hc] at h1
                cases h1
          · intro msg h
            rw [hstep] at h
            have hmsg : msg = "unsupported critical extension found in CRL: " ++ toString ext.id := by
              injection h with h2
              exact h2.symm
            exact ⟨ext, List.mem_cons_self ext rest, hc, hidp, hdci, hmsg⟩
        · have hcf : ext.critical = false := by
            cases hb : ext.critical
            · rfl
            · exact absurd hb hc
          have hstep : validateCRLExtensions (ext :: rest) = validateCRLExtensions rest := by
            simp [validateCRLExtensions, hidp, hdci, hcf]
          constructor
          · rw [hstep, ih.1]
            constructor
            · intro hall x hx
              rcases List.mem_cons.mp hx with h1 | h2
              · subst h1
                exact Or.inr (Or.inr hcf)
              · exact hall x h2
            · intro hall x hx
              exact hall x (List.mem_cons_of_mem ext hx)
          · intro msg h
            rw [hstep] at h
            obtain ⟨x, hx, hrest⟩ := ih.2 msg h
            exact ⟨x, List.mem_cons_of_mem ext hx, hrest⟩

/-- C8: for every CRL whose signature verifies and whose next-update check
passes, validateCRL accepts the issuing distribution point and delta CRL
indicator extensions without interpretation regardless of their
criticality, fails exactly when some other extension is critical — with
the unsupported-critical-extension error naming the offender — and
ignores all other non-critical extensions. -/
theorem validateCRL_extension_policy (env : CRLEnv) (crl : RevocationList)
    (hsig : env.checkSignatureFrom crl = none)
    (hnu : crl.nextUpdate ≠ 0)
    (hexp : ¬ crl.nextUpdate < env.now) :
    (validateCRL env crl = .ok () ↔
      ∀ ext ∈ crl.extensions, ext.id = oidIssuingDistributionPoint ∨
        ext.id = oidDeltaCRLIndicator ∨ ext.critical = false) ∧
    (∀ msg, validateCRL env crl = .error msg →
      ∃ ext ∈ crl.extensions, ext.critical = true ∧ ext.id ≠ oidIssuingDistributionPoint ∧
        ext.id ≠ oidDeltaCRLIndicator ∧
        msg = "unsupported critical extension found in CRL: " ++ toString ext.id) := by
  have hv : validateCRL env crl = validateCRLExtensions crl.extensions := by
    simp only [validateCRL, hsig]
    rw [if_neg hnu, if_neg hexp]
  rw [hv]
  exact validateCRLExtensions_policy crl.extensions

/-- C8 witness: a CRL with a critical issuing distribution point extension
and an unrecognized non-critical extension passes validation. -/
theorem validateCRL_extension_policy_witness :
    validateCRL testEnv crlWithIDPCritical = .ok () :=
  (validateCRL_extension_policy testEnv crlWithIDPCritical rfl (by decide) (by decide)).1.mpr
    (by decide)

/-- Helper: the invalidity-date fold leaves the held value unchanged over
extensions that are not invalidity-date extensions. -/
theorem invDateFold_skips (env : CRLEnv) :
    ∀ (l : List Extension) (a : Nat), (∀ x ∈ l, x.id ≠ oidInvalidityDate) →
    invDateFold env a l = a := by
  intro l
  induction l with
  | nil =>
    intro a _
    rfl
  | cons ext rest ih =>
    intro a h
    have hstep : invDateStep env a ext = a := by
      simp [invDateStep, h ext (List.mem_cons_self ext rest)]
    rw [show invDateFold env a (ext :: rest) = invDateFold env (invDateStep env a ext) rest from rfl,
      hstep]
    exact ih a (fun x hx => h x (List.mem_cons_of_mem ext hx))

/-- Helper: characterization of the loop of parseEntryExtensions: it
succeeds exactly when every remaining extension is well formed, and on
success the resulting invalidity date is the fold of the overwrite rule
over the remaining extensions, started from the accumulated value. -/
theorem parseEntryExtensionsLoop_spec (env : CRLEnv) :
    ∀ (exts : List Extension) (acc : EntryExtensions),
    ((∃ r, parseEntryExtensionsLoop env exts acc = .ok r) ↔
      ∀ ext ∈ exts, ExtensionWellFormed env ext) ∧
    (∀ r, parseEntryExtensionsLoop env exts acc = .ok r →
      r.invalidityDate = invDateFold env acc.invalidityDate exts) := by
  intro exts
  induction exts with
  | nil =>
    intro acc
    constructor
    · constructor
      · intro _ ext hx
        exact absurd hx (List.not_mem_nil ext)
      · intro _
        exact ⟨acc, rfl⟩
    · intro r h
      have hra : acc = r := by
        injection h
      rw [← hra]
      rfl
  | cons ext rest ih =>
    intro acc
    by_cases hid : ext.id = oidInvalidityDate
    · cases hdec : env.unmarshalGeneralizedTime ext.value with
      | none =>
        have hwf : ¬ ExtensionWellFormed env ext := by
          unfold ExtensionWellFormed
          rw [if_pos hid]
          rintro ⟨t, ht⟩
          rw [hdec] at ht
          cases ht
        have hloop : parseEntryExtensionsLoop env (ext :: rest) acc =
            .error ("failed to parse invalidity date") := by
          simp only [parseEntryExtensionsLoop, if_pos hid, hdec]
        constructor
        · constructor
          · rintro ⟨r, hr⟩
            rw [hloop] at hr
            cases hr
          · intro hall
            exact absurd (hall ext (List.mem_cons_self ext rest)) hwf
        · intro r hr
          rw [hloop] at hr
          cases hr
      | some p =>
        obtain ⟨t, trailing⟩ := p
        cases trailing with
        | cons by2 bs =>
          have hwf : ¬ ExtensionWellFormed env ext := by
            unfold ExtensionWellFormed
            rw [if_pos hid]
            rintro ⟨t2, ht⟩
            rw [hdec] at ht
            exact absurd ht (by simp)
          have hloop : parseEntryExtensionsLoop env (ext :: rest) acc =
              .error ("invalid invalidity date extension: trailing data") := by
            simp [parseEntryExtensionsLoop, hid, hdec]
          constructor
          · constructor
            · rintro ⟨r, hr⟩
              rw [hloop] at hr
              cases hr
            · intro hall
              exact absurd (hall ext (List.mem_cons_self ext rest)) hwf
          · intro r hr
            rw [hloop] at hr
            cases hr
        | nil =>
          have hwf : ExtensionWellFormed env ext := by
            unfold ExtensionWellFormed
            rw [if_pos hid]
            exact ⟨t, hdec⟩
          have hloop : parseEntryExtensionsLoop env (ext :: rest) acc =
              parseEntryExtensionsLoop env rest { invalidityDate := t } := by
            simp [parseEntryExtensionsLoop, hid, hdec]
          have hfold : invDateFold env acc.invalidityDate (ext :: rest) =
              invDateFold env t rest := by
            rw [show invDateFold env acc.invalidityDate (ext :: rest) =
                invDateFold env (invDateStep env acc.invalidityDate ext) rest from rfl]
            have : invDateStep env acc.invalidityDate ext = t := by
              simp [invDateStep, hid, hdec]
            rw [this]
          constructor
          · rw [hloop, (ih { invalidityDate := t }).1]
            constructor
            · intro hall x hx
              rcases List.mem_cons.mp hx with h1 | h2
              · subst h1
                exact hwf
              · exact hall x h2
            · intro hall x hx
              exact hall x (List.mem_cons_of_mem ext hx)
          · intro r hr
            rw [hloop] at hr
            rw [hfold]
            exact (ih { invalidityDate := t }).2 r hr
    · by_cases hc : ext.critical = true
      · have hwf : ¬ ExtensionWellFormed env ext := by
          unfold ExtensionWellFormed
          rw [if_neg hid, hc]
          simp
        have hloop : parseEntryExtensionsLoop env (ext :: rest) acc =
            .error ("unsupported critical extension found in CRL: " ++ toString ext.id) := by
          simp [parseEntryExtensionsLoop, hid, hc]
        constructor
        · constructor
          · rintro ⟨r, hr⟩
            rw [hloop] at hr
            cases hr
          · intro hall
            exact absurd (hall ext (List.mem_cons_self ext rest)) hwf
        · intro r hr
          rw [hloop] at hr
          cases hr
      · have hcf : ext.critical = false := by
          cases hb : ext.critical
          · rfl
          · exact absurd hb hc
        have hwf : ExtensionWellFormed env ext := by
          unfold ExtensionWellFormed
          rw [if_neg hid]
          exact hcf
        have hloop : parseEntryExtensionsLoop env (ext :: rest) acc =
            parseEntryExtensionsLoop env rest acc := by
          simp [parseEntryExtensionsLoop, hid, hcf]
        have hfold : invDateFold env acc.invalidityDate (ext :: rest) =
            invDateFold env acc.invalidityDate rest := by
          rw [show invDateFold env acc.invalidityDate (ext :: rest) =
              invDateFold env (invDateStep env acc.invalidityDate ext) rest from rfl]
          have : invDateStep env acc.invalidityDate ext = acc.invalidityDate := by
            simp [invDateStep, hid]
          rw [this]
        constructor
        · rw [hloop, (ih acc).1]
          constructor
          · intro hall x hx
            rcases List.mem_cons.mp hx with h1 | h2
            · subst h1
              exact hwf
            · exact hall x h2
          · intro hall x hx
            exact hall x (List.mem_cons_of_mem ext hx)
        · intro r hr
          rw [hloop] at hr
          rw [hfold]
          exact (ih acc).2 r hr

/-- C9: parseEntryExtensions succeeds exactly when every invalidity-date
extension of the entry decodes as a generalized time with no trailing
bytes and every other extension is non-critical — so a malformed or
trailing-byte invalidity date and any other critical extension are errors
and other non-critical extensions are ignored; on success the returned
invalidity date is the decoded value held after the scan, which is the
zero value when no invalidity-date extension is present. -/
theorem parseEntryExtensions_policy (env : CRLEnv) (entry : RevocationListEntry) :
    ((∃ r, parseEntryExtensions env entry = .ok r) ↔
      ∀ ext ∈ entry.extensions, ExtensionWellFormed env ext) ∧
    (∀ r, parseEntryExtensions env entry = .ok r →
      r.invalidityDate = invDateFold env 0 entry.extensions) ∧
    ((∀ ext ∈ entry.extensions, ext.id ≠ oidInvalidityDate ∧ ext.critical = false) →
      parseEntryExtensions env entry = .ok { invalidityDate := 0 }) := by
  refine ⟨?_, ?_, ?_⟩
  · exact (parseEntryExtensionsLoop_spec env entry.extensions { invalidityDate := 0 }).1
  · intro r hr
    exact (parseEntryExtensionsLoop_spec env entry.extensions { invalidityDate := 0 }).2 r hr
  · intro hall
    have hwf : ∀ x ∈ entry.extensions, ExtensionWellFormed env x := by
      intro x hx
      obtain ⟨hni, hnc⟩ := hall x hx
      unfold ExtensionWellFormed
      rw [if_neg hni]
      exact hnc
    obtain ⟨r, hr⟩ :=
      ((parseEntryExtensionsLoop_spec env entry.extensions { invalidityDate := 0 }).1).mpr hwf
    have hskip : invDateFold env 0 entry.extensions = 0 :=
      invDateFold_skips env entry.extensions 0 (fun x hx => (hall x hx).1)
    have hv2 : r.invalidityDate = 0 := by
      rw [(parseEntryExtensionsLoop_spec env entry.extensions { invalidityDate := 0 }).2 r hr]
      exact hskip
    cases r with
    | mk inv =>
      have hinv : inv = 0 := hv2
      subst hinv
      exact hr

/-- C9 witness: an entry with a single unrecognized non-critical extension
parses to the zero invalidity date. -/
theorem parseEntryExtensions_policy_witness :
    parseEntryExtensions testEnv entryOtherExt = .ok { invalidityDate := 0 } :=
  (parseEntryExtensions_policy testEnv entryOtherExt).2.2 (by decide)

/-- C10: for every entry carrying more than one invalidity-date extension,
each decoding fully as a generalized time, parseEntryExtensions succeeds
and returns the value of the last invalidity-date extension in list order,
silently overwriting the values decoded from the earlier ones. -/
theorem parseEntryExtensions_last_invalidity_date_wins (env : CRLEnv)
    (entry : RevocationListEntry) (l1 l2 : List Extension) (ext : Extension) (t : Nat)
    (hdecomp : entry.extensions = l1 ++ ext :: l2)
    (hid : ext.id = oidInvalidityDate)
    (hdec : env.unmarshalGeneralizedTime ext.value = some (t, []))
    (hbefore : ∀ x ∈ l1, ExtensionWellFormed env x)
    (hafter : ∀ x ∈ l2, x.id ≠ oidInvalidityDate ∧ x.critical = false)
    (_hmulti : ∃ x ∈ l1, x.id = oidInvalidityDate) :
    parseEntryExtensions env entry = .ok { invalidityDate := t } := by
  have hwf : ∀ x ∈ entry.extensions, ExtensionWellFormed env x := by
    rw [hdecomp]
    intro x hx
    rcases List.mem_append.mp hx with h1 | h2
    · exact hbefore x h1
    · rcases List.mem_cons.mp h2 with h3 | h4
      · subst h3
        unfold ExtensionWellFormed
        rw [if_pos hid]
        exact ⟨t, hdec⟩
      · obtain ⟨hni, hnc⟩ := hafter x h4
        unfold ExtensionWellFormed
        rw [if_neg hni]
        exact hnc
  obtain ⟨r, hr⟩ :=
    ((parseEntryExtensionsLoop_spec env entry.extensions { invalidityDate := 0 }).1).mpr hwf
  have hfold : invDateFold env 0 entry.extensions = t := by
    rw [hdecomp]
    unfold invDateFold
    rw [List.foldl_append, List.foldl_cons]
    have hstep : invDateStep env (List.foldl (invDateStep env) 0 l1) ext = t := by
      simp [invDateStep, hid, hdec]
    rw [hstep]
    exact invDateFold_skips env l2 t (fun x hx => (hafter x hx).1)
  have hv2 : r.invalidityDate = t := by
    rw [(parseEntryExtensionsLoop_spec env entry.extensions { invalidityDate := 0 }).2 r hr]
    exact hfold
  cases r with
  | mk inv =>
    have hinv : inv = t := hv2
    subst hinv
    exact hr

/-- C10 witness: an entry with two invalidity-date extensions decoding to
3 and then 9 parses to the later value 9. -/
theorem parseEntryExtensions_last_invalidity_date_wins_witness :
    parseEntryExtensions testEnv entryTwoInvalidity = .ok { invalidityDate := 9 } :=
  parseEntryExtensions_last_invalidity_date_wins testEnv entryTwoInvalidity
    [{ id := oidInvalidityDate, critical := false, value := [3] }] []
    { id := oidInvalidityDate, critical := false, value := [9] } 9
    rfl rfl rfl
    (by
      intro x hx
      have h := List.mem_singleton.mp hx
      subst h
      unfold ExtensionWellFormed
      rw [if_pos rfl]
      exact ⟨3, rfl⟩)
    (by intro x hx; exact absurd hx (List.not_mem_nil x))
    ⟨{ id := oidInvalidityDate, critical := false, value := [3] },
      List.mem_singleton.mpr rfl, rfl⟩

end CRL
